import Mathlib

/-!
Verification of the emoji-usage aggregation engine
(`src/emoji_usage/` of slack_emoji_usage_analyzer).

The Python modules `query_builder.py`, `slack_client.py`, `aggregator.py`
and `csv_writer.py` are shallowly embedded below.  External effects
(`time`, the Slack transport, the filesystem) are made explicit: clocks
are rational-valued state threaded through the pacing function, the
transport is an oracle parameter giving the outcome of each attempt, and
writes are events in a trace.  Python ints are `Int`/`Nat`, floats used
for time are `ℚ` (exact model of the arithmetic performed on them).
-/

namespace EmojiUsage

/-! ## Calendar model (`datetime.date` and `relativedelta`) -/

/-- A calendar date, as Python `datetime.date(year, month, day)`. -/
structure Date where
  year : Int
  month : Int
  day : Int
deriving Repr, DecidableEq

/-- Gregorian leap-year rule. -/
def isLeapYear (y : Int) : Bool :=
  y % 4 == 0 && (y % 100 != 0 || y % 400 == 0)

/-- Number of days of month `m` in year `y`. -/
def daysInMonth (y m : Int) : Int :=
  if m == 2 then (if isLeapYear y then 29 else 28)
  else if m == 4 || m == 6 || m == 9 || m == 11 then 30
  else 31

/-- Absolute month number of a date: `12*year + (month - 1)`. -/
def monthIndex (d : Date) : Int := 12 * d.year + (d.month - 1)

/-- The date in the month with absolute month number `t`, with the
requested day clamped to the length of that month (the clamping
`dateutil.relativedelta` performs on month arithmetic). -/
def ofMonthIndex (t : Int) (day : Int) : Date :=
  ⟨t / 12, t % 12 + 1, min day (daysInMonth (t / 12) (t % 12 + 1))⟩

/-- `d - relativedelta(months=k)`. -/
def subMonths (d : Date) (k : Int) : Date := ofMonthIndex (monthIndex d - k) d.day

/-- `d + relativedelta(months=k)`. -/
def addMonths (d : Date) (k : Int) : Date := ofMonthIndex (monthIndex d + k) d.day

/-- `d.replace(day=1)`. -/
def replaceDay1 (d : Date) : Date := ⟨d.year, d.month, 1⟩

/-- `d - relativedelta(days=1)`: the previous calendar day. -/
def subOneDay (d : Date) : Date :=
  if d.day > 1 then ⟨d.year, d.month, d.day - 1⟩
  else
    let p := ofMonthIndex (monthIndex d - 1) 1
    ⟨p.year, p.month, daysInMonth p.year p.month⟩

/-- Python `date` comparison: lexicographic on (year, month, day). -/
def dateLt (a b : Date) : Prop :=
  a.year < b.year ∨ (a.year = b.year ∧
    (a.month < b.month ∨ (a.month = b.month ∧ a.day < b.day)))

instance (a b : Date) : Decidable (dateLt a b) := by
  unfold dateLt; infer_instance

/-! ## `query_builder.generate_period_starts`

The Python loop runs over `range(period_count)` with
`period_count = (total_months + interval_months - 1) // interval_months`,
breaking out as soon as `i * interval_months >= total_months`; each
iteration appends `(current_date - relativedelta(months=i*interval)).replace(day=1)`.
The fuel argument of `periodStartsGo` is the number of loop iterations
remaining, `i` the loop index. -/

def periodStartsGo (total interval : Nat) (cur : Date) : Nat → Nat → List Date
  | 0, _ => []
  | n+1, i =>
    if total ≤ i * interval then []
    else replaceDay1 (subMonths cur (i * interval)) :: periodStartsGo total interval cur n (i+1)

/-- `generate_period_starts(total_months, interval_months)` with the
ambient `datetime.now().date()` made an explicit argument `cur`. -/
def generate_period_starts (total interval : Nat) (cur : Date) : List Date :=
  periodStartsGo total interval cur ((total + interval - 1) / interval) 0

/-- `generate_month_starts(months)` (the `interval = 1` generator used by
the aggregator): the first days of the `months` most recent months,
newest first. -/
def generate_month_starts (months : Nat) (cur : Date) : List Date :=
  (List.range months).map (fun i => replaceDay1 (subMonths cur ((i : Nat) : Int)))

/-- First day of the month lying `k` calendar months before the month of
`cur` (the claim-side description of the generated dates). -/
def firstDayMonthsBack (cur : Date) (k : Int) : Date :=
  ⟨(monthIndex cur - k) / 12, (monthIndex cur - k) % 12 + 1, 1⟩

lemma replaceDay1_subMonths (cur : Date) (k : Int) :
    replaceDay1 (subMonths cur k) = firstDayMonthsBack cur k := by
  simp [replaceDay1, subMonths, ofMonthIndex, firstDayMonthsBack]

lemma monthIndex_firstDayMonthsBack (cur : Date) (k : Int) :
    monthIndex (firstDayMonthsBack cur k) = monthIndex cur - k := by
  have h := Int.ediv_add_emod (monthIndex cur - k) 12
  show 12 * ((monthIndex cur - k) / 12) + ((monthIndex cur - k) % 12 + 1 - 1)
      = monthIndex cur - k
  omega

lemma dateLt_of_monthIndex_lt {a b : Date}
    (h : monthIndex a < monthIndex b)
    (hma : 0 ≤ a.month - 1) (hma12 : a.month - 1 < 12)
    (hmb : 0 ≤ b.month - 1) (hmb12 : b.month - 1 < 12) : dateLt a b := by
  simp only [monthIndex] at h
  rcases lt_trichotomy a.year b.year with hy | hy | hy
  · exact Or.inl hy
  · exact Or.inr ⟨hy, Or.inl (by omega)⟩
  · exfalso; omega

lemma month_bounds_firstDayMonthsBack (cur : Date) (k : Int) :
    0 ≤ (firstDayMonthsBack cur k).month - 1 ∧
      (firstDayMonthsBack cur k).month - 1 < 12 := by
  have h1 : 0 ≤ (monthIndex cur - k) % 12 :=
    Int.emod_nonneg _ (by norm_num)
  have h2 : (monthIndex cur - k) % 12 < 12 :=
    Int.emod_lt_of_pos _ (by norm_num)
  constructor
  · show 0 ≤ (monthIndex cur - k) % 12 + 1 - 1
    omega
  · show (monthIndex cur - k) % 12 + 1 - 1 < 12
    omega

/-- On indices where the early `break` cannot fire, the loop is a map
over `List.range`. -/
lemma periodStartsGo_eq_map (total interval : Nat) (cur : Date) :
    ∀ n i, (∀ j, j < n → (i + j) * interval < total) →
      periodStartsGo total interval cur n i =
        (List.range n).map
          (fun j => replaceDay1 (subMonths cur (((i + j) * interval : Nat) : Int))) := by
  intro n
  induction n with
  | zero => intro i _; simp [periodStartsGo]
  | succ m ih =>
    intro i h
    have h0 : i * interval < total := by simpa using h 0 (Nat.succ_pos m)
    have hrec := ih (i + 1) (fun j hj => by
      have := h (j + 1) (Nat.succ_lt_succ hj)
      have he : i + 1 + j = i + (j + 1) := by omega
      rw [he]; exact this)
    simp only [periodStartsGo, if_neg (Nat.not_le.mpr h0)]
    rw [List.range_succ_eq_map, List.map_cons, List.map_map, hrec]
    refine congrArg₂ List.cons rfl ?_
    apply List.map_congr_left
    intro j _
    simp only [Function.comp, Nat.succ_eq_add_one]
    have he : i + 1 + j = i + (j + 1) := by omega
    rw [he]

lemma break_never_fires (total interval : Nat) (ht : 1 ≤ total) (hv : 1 ≤ interval) :
    ∀ j, j < (total + interval - 1) / interval → j * interval < total := by
  intro j hj
  have hcount : (total + interval - 1) / interval = (total - 1) / interval + 1 := by
    have : total + interval - 1 = (total - 1) + interval := by omega
    rw [this, Nat.add_div_right _ (by omega)]
  have hj1 : j ≤ (total - 1) / interval := by omega
  have h2 : j * interval ≤ ((total - 1) / interval) * interval :=
    Nat.mul_le_mul_right _ hj1
  have h3 : ((total - 1) / interval) * interval ≤ total - 1 := by
    have := Nat.div_mul_le_self (total - 1) interval
    omega
  omega

lemma generate_period_starts_eq_map (total interval : Nat) (cur : Date)
    (ht : 1 ≤ total) (hv : 1 ≤ interval) :
    generate_period_starts total interval cur =
      (List.range ((total + interval - 1) / interval)).map
        (fun i => firstDayMonthsBack cur ((i * interval : Nat) : Int)) := by
  unfold generate_period_starts
  rw [periodStartsGo_eq_map total interval cur _ 0
    (fun j hj => by simpa using break_never_fires total interval ht hv j hj)]
  apply List.map_congr_left
  intro j _
  rw [Nat.zero_add, replaceDay1_subMonths]

/-- **C1.** For `total_months ≥ 1` and `interval_months ≥ 1` and any current
date, `generate_period_starts` returns exactly
`⌈total_months / interval_months⌉ = (total + interval - 1) / interval`
dates; the i-th (0-indexed) is the first day of the month lying
`i * interval_months` calendar months before the current month, and the
list is strictly decreasing (newest first) under the date order. -/
theorem generate_period_starts_spec (total interval : Nat) (cur : Date)
    (ht : 1 ≤ total) (hv : 1 ≤ interval) :
    (generate_period_starts total interval cur).length
        = (total + interval - 1) / interval ∧
    (∀ i, ∀ h : i < (generate_period_starts total interval cur).length,
      (generate_period_starts total interval cur).get ⟨i, h⟩ =
        firstDayMonthsBack cur ((i * interval : Nat) : Int)) ∧
    List.Chain' (fun a b => dateLt b a) (generate_period_starts total interval cur) := by
  rw [generate_period_starts_eq_map total interval cur ht hv]
  refine ⟨by simp, ?_, ?_⟩
  · intro i h
    simp only [List.get_eq_getElem, List.getElem_map, List.getElem_range]
  · rw [List.chain'_map]
    cases hn : (total + interval - 1) / interval with
    | zero => simp
    | succ m =>
      rw [List.chain'_range_succ]
      intro i hi
      have hb1 := month_bounds_firstDayMonthsBack cur (((i+1) * interval : Nat) : Int)
      have hb2 := month_bounds_firstDayMonthsBack cur ((i * interval : Nat) : Int)
      refine dateLt_of_monthIndex_lt ?_ hb1.1 hb1.2 hb2.1 hb2.2
      rw [monthIndex_firstDayMonthsBack, monthIndex_firstDayMonthsBack]
      have h1 : (i + 1) * interval = i * interval + interval := by ring
      have h2 : i * interval < (i + 1) * interval := by omega
      have hc : ((i * interval : Nat) : Int) < (((i + 1) * interval : Nat) : Int) := by
        exact_mod_cast h2
      simp only [Nat.succ_eq_add_one] at hc ⊢
      push_cast at hc ⊢
      omega

/-! ## `query_builder`: query construction and validation -/

/-- Zero-pad the decimal representation of a nonnegative integer to width
`w`, as `strftime` field formatting does. -/
def padNum (w : Nat) (n : Int) : String :=
  let s := toString n.toNat
  String.mk (List.replicate (w - s.length) '0') ++ s

/-- `d.strftime("%Y-%m-%d")`. -/
def dateStrYmd (d : Date) : String :=
  padNum 4 d.year ++ "-" ++ padNum 2 d.month ++ "-" ++ padNum 2 d.day

/-- `d.strftime("%Y-%m")`, the period label the aggregator stores in a row. -/
def monthLabel (d : Date) : String :=
  padNum 4 d.year ++ "-" ++ padNum 2 d.month

/-- `build_monthly_queries(emoji_name, month_start)`: the text query
`":name: after:START before:END"` and the reaction query
`"has::name: after:START before:END"`, where END is the last day of the
month (`month_start + relativedelta(months=1) - relativedelta(days=1)`). -/
def build_monthly_queries (emoji_name : String) (month_start : Date) : String × String :=
  let month_end := subOneDay (addMonths month_start 1)
  let start_str := dateStrYmd month_start
  let end_str := dateStrYmd month_end
  (":" ++ emoji_name ++ ": after:" ++ start_str ++ " before:" ++ end_str,
   "has::" ++ emoji_name ++ ": after:" ++ start_str ++ " before:" ++ end_str)

/-- `validate_query(query)`: rejects an empty query, a query longer than
1000 characters, and a query without a `:` character (the `":" in query`
membership test on a one-character string). -/
def validate_query (query : String) : Bool :=
  if query.isEmpty then false
  else if query.length > 1000 then false
  else if !(query.contains ':') then false
  else true

/-! ## `slack_client`: pacing (`_respect_interval`)

`time.perf_counter` and `time.sleep` are modelled by an explicit
rational-valued clock: `now` is the current wall-clock reading and `last`
the module-global `_last_call_ts`.  `time.sleep(x)` advances `now` by
exactly `x`. -/

structure ClockState where
  now : ℚ
  last : ℚ

/-- `_respect_interval()`: compute the elapsed time since the last
recorded call; if it is below the minimum interval `I`, sleep for the
remainder; then record the new timestamp (which is exactly the dispatch
time of the call that follows). -/
def respect_interval (I : ℚ) (s : ClockState) : ClockState :=
  let elapsed := s.now - s.last
  let now2 := if elapsed < I then s.now + (I - elapsed) else s.now
  ⟨now2, now2⟩

/-- Dispatch times of a sequence of calls, each preceded by
`_respect_interval`: `d` is the (arbitrary) time the program spends
between one dispatch and the start of the next call's pacing step. -/
def dispatchTimes (I : ℚ) : ClockState → List ℚ → List ℚ
  | _, [] => []
  | s, d :: ds =>
    let s2 := respect_interval I s
    s2.last :: dispatchTimes I ⟨s2.now + d, s2.last⟩ ds

lemma respect_interval_last_ge (I : ℚ) (s : ClockState) :
    s.last + I ≤ (respect_interval I s).last := by
  simp only [respect_interval]
  split_ifs with h
  · linarith
  · linarith

/-- **C7.** For every minimum interval `I`, initial clock state, and
sequence of calls through the client, consecutive dispatch times are at
least `I` apart: before each dispatch the client sleeps for the remainder
of `I` not yet elapsed since the last recorded timestamp, and records the
new timestamp immediately before dispatch. -/
theorem pacing_invariant (I : ℚ) (s : ClockState) (ds : List ℚ) :
    List.Chain' (fun a b => a + I ≤ b) (dispatchTimes I s ds) := by
  induction ds generalizing s with
  | nil => simp [dispatchTimes]
  | cons d ds ih =>
    rw [dispatchTimes, List.chain'_cons']
    refine ⟨?_, ih _⟩
    intro b hb
    cases ds with
    | nil => simp [dispatchTimes] at hb
    | cons d2 ds2 =>
      rw [dispatchTimes] at hb
      simp only [List.head?_cons, Option.mem_def, Option.some.injEq] at hb
      subst hb
      exact respect_interval_last_ge I _

/-! ## `slack_client`: retrying operations

The transport is an oracle `orc : Nat → Attempt _` giving the outcome of
the k-th dispatched request (0-indexed).  `Attempt.apiError st` is a
`SlackApiError` whose response carries HTTP status `st`; 429 is the
rate-limit signal.  The `for attempt in range(1, max_retry+1)` loops are
embedded with the remaining iteration count as fuel. -/

inductive Attempt (α : Type) where
  | resp (r : α)
  | apiError (status : Nat)
deriving Repr, DecidableEq

/-- The `messages` member of a search response. `total` is the value of
its `"total"` key when present; `truthy` is the Python truthiness of the
member (an empty dict is falsy). -/
structure Messages where
  truthy : Bool
  total : Option Nat
deriving Repr, DecidableEq

/-- A search response; `messages` is absent (`None`) when the key is
missing. A wholly falsy/empty response is `none` at the call site. -/
structure SearchResp where
  messages : Option Messages
deriving Repr, DecidableEq

/-- The count extraction of `search_messages_safe`:
`messages = resp.get("messages") if resp else None;`
`total = messages.get("total", 0) if messages else 0`. -/
def extractTotal (resp : Option SearchResp) : Nat :=
  match resp with
  | none => 0
  | some r =>
    match r.messages with
    | none => 0
    | some m => if m.truthy then m.total.getD 0 else 0

/-- Loop body of `search_messages_safe`: on a delivered response, return
the extracted total; on a 429, continue with the next attempt; on any
other `SlackApiError`, re-raise; when the loop exhausts, return 0. -/
def searchGo (orc : Nat → Attempt (Option SearchResp)) : Nat → Nat → Except Nat Nat
  | 0, _ => .ok 0
  | n+1, k =>
    match orc k with
    | .resp r => .ok (extractTotal r)
    | .apiError st => if st == 429 then searchGo orc n (k+1) else .error st

/-- `search_messages_safe(query)` with `settings.max_retry = maxRetry`. -/
def search_messages_safe (maxRetry : Nat)
    (orc : Nat → Attempt (Option SearchResp)) : Except Nat Nat :=
  searchGo orc maxRetry 0

/-- An `emoji.list` response: `ok` flag, HTTP status of the response
object, and the `emoji` dict as an association list (absent key = `none`;
an empty dict is falsy). -/
structure EmojiListResp where
  ok : Bool
  status : Nat
  emoji : Option (List (String × String))
deriving Repr, DecidableEq

/-- Loop body of `get_custom_emojis`: a response with `ok == False`
raises a `SlackApiError` carrying the response (caught by the same
handler, so a 429 status continues and any other re-raises); a truthy
`emoji` dict maps to `[{"name": n, "url": u}, ...]`; a falsy one yields
`[]`; exhausting the loop yields `[]`. -/
def emojisGo (orc : Nat → Attempt EmojiListResp) :
    Nat → Nat → Except Nat (List (String × String))
  | 0, _ => .ok []
  | n+1, k =>
    match orc k with
    | .resp r =>
      if !r.ok then
        (if r.status == 429 then emojisGo orc n (k+1) else .error r.status)
      else
        match r.emoji with
        | some l => .ok (if l.isEmpty then [] else l.map (fun p => (p.1, p.2)))
        | none => .ok []
    | .apiError st => if st == 429 then emojisGo orc n (k+1) else .error st

/-- `get_custom_emojis()` with `settings.max_retry = maxRetry`. -/
def get_custom_emojis (maxRetry : Nat)
    (orc : Nat → Attempt EmojiListResp) : Except Nat (List (String × String)) :=
  emojisGo orc maxRetry 0

/-- A `team.info` response: `ok` flag, HTTP status, and the `team` dict
as an association list. -/
structure TeamResp where
  ok : Bool
  status : Nat
  team : Option (List (String × String))
deriving Repr, DecidableEq

/-- Loop body of `get_workspace_info`: like `get_custom_emojis`, except a
non-429 `SlackApiError` `break`s out of the loop (falling through to
`return None`) instead of re-raising; a falsy `team` member yields the
empty dict; exhaustion yields `None`. -/
def workspaceGo (orc : Nat → Attempt TeamResp) :
    Nat → Nat → Option (List (String × String))
  | 0, _ => none
  | n+1, k =>
    match orc k with
    | .resp r =>
      if !r.ok then
        (if r.status == 429 then workspaceGo orc n (k+1) else none)
      else
        match r.team with
        | some t => if t.isEmpty then some [] else some t
        | none => some []
    | .apiError st => if st == 429 then workspaceGo orc n (k+1) else none

/-- `get_workspace_info()` with `settings.max_retry = maxRetry`. -/
def get_workspace_info (maxRetry : Nat)
    (orc : Nat → Attempt TeamResp) : Option (List (String × String)) :=
  workspaceGo orc maxRetry 0

lemma searchGo_all429 (orc : Nat → Attempt (Option SearchResp)) :
    ∀ n k, (∀ j, k ≤ j → j < k + n → orc j = .apiError 429) →
      searchGo orc n k = .ok 0 := by
  intro n
  induction n with
  | zero => intro k _; rfl
  | succ m ih =>
    intro k h
    have hk : orc k = .apiError 429 := h k le_rfl (by omega)
    rw [searchGo, hk]
    simp only [beq_self_eq_true, if_true]
    exact ih (k+1) (fun j h1 h2 => h j (by omega) (by omega))

lemma emojisGo_all429 (orc : Nat → Attempt EmojiListResp) :
    ∀ n k, (∀ j, k ≤ j → j < k + n → orc j = .apiError 429) →
      emojisGo orc n k = .ok [] := by
  intro n
  induction n with
  | zero => intro k _; rfl
  | succ m ih =>
    intro k h
    have hk : orc k = .apiError 429 := h k le_rfl (by omega)
    rw [emojisGo, hk]
    simp only [beq_self_eq_true, if_true]
    exact ih (k+1) (fun j h1 h2 => h j (by omega) (by omega))

lemma workspaceGo_all429 (orc : Nat → Attempt TeamResp) :
    ∀ n k, (∀ j, k ≤ j → j < k + n → orc j = .apiError 429) →
      workspaceGo orc n k = none := by
  intro n
  induction n with
  | zero => intro k _; rfl
  | succ m ih =>
    intro k h
    have hk : orc k = .apiError 429 := h k le_rfl (by omega)
    rw [workspaceGo, hk]
    simp only [beq_self_eq_true, if_true]
    exact ih (k+1) (fun j h1 h2 => h j (by omega) (by omega))

/-- **C8.** When every one of the `max_retry` attempts of an operation is
rejected with a rate-limit (429) signal, `search_messages_safe` returns
0, `get_custom_emojis` returns the empty list, and `get_workspace_info`
returns `None`; none of them raises on retry exhaustion. -/
theorem retry_exhaustion_degrades (maxRetry : Nat)
    (orcS : Nat → Attempt (Option SearchResp))
    (orcE : Nat → Attempt EmojiListResp)
    (orcW : Nat → Attempt TeamResp)
    (hS : ∀ j, j < maxRetry → orcS j = .apiError 429)
    (hE : ∀ j, j < maxRetry → orcE j = .apiError 429)
    (hW : ∀ j, j < maxRetry → orcW j = .apiError 429) :
    search_messages_safe maxRetry orcS = .ok 0 ∧
    get_custom_emojis maxRetry orcE = .ok [] ∧
    get_workspace_info maxRetry orcW = none := by
  refine ⟨?_, ?_, ?_⟩
  · exact searchGo_all429 orcS maxRetry 0 (fun j _ h2 => hS j (by omega))
  · exact emojisGo_all429 orcE maxRetry 0 (fun j _ h2 => hE j (by omega))
  · exact workspaceGo_all429 orcW maxRetry 0 (fun j _ h2 => hW j (by omega))

/-- Witness for C8 at `max_retry = 3` and an always-429 transport. -/
theorem retry_exhaustion_degrades_witness :
    search_messages_safe 3 (fun _ => .apiError 429) = .ok 0 ∧
    get_custom_emojis 3 (fun _ => .apiError 429) = .ok [] ∧
    get_workspace_info 3 (fun _ => .apiError 429) = none :=
  retry_exhaustion_degrades 3 _ _ _
    (fun _ _ => rfl) (fun _ _ => rfl) (fun _ _ => rfl)

/-- The response shapes of C10: an empty/falsy response, a response
without a `messages` member, or a `messages` member without a `total`
key. -/
def absentCount (resp : Option SearchResp) : Prop :=
  resp = none ∨
    (∃ r, resp = some r ∧ (r.messages = none ∨
      ∃ m, r.messages = some m ∧ m.total = none))

/-- **C10.** A response delivered without raising that is empty, lacks a
`messages` member, or whose `messages` lacks a `total` key makes
`search_messages_safe` return 0 rather than raise. -/
theorem search_absent_count_is_zero (maxRetry : Nat)
    (orc : Nat → Attempt (Option SearchResp)) (resp : Option SearchResp)
    (hR : 1 ≤ maxRetry) (h0 : orc 0 = .resp resp) (habs : absentCount resp) :
    search_messages_safe maxRetry orc = .ok 0 := by
  obtain ⟨m, rfl⟩ : ∃ m, maxRetry = m + 1 := ⟨maxRetry - 1, by omega⟩
  unfold search_messages_safe
  rw [searchGo, h0]
  have hz : extractTotal resp = 0 := by
    rcases habs with rfl | ⟨r, rfl, hm⟩
    · rfl
    · rcases hm with hm | ⟨mm, hm, ht⟩
      · simp [extractTotal, hm]
      · simp [extractTotal, hm, ht]
  show Except.ok (extractTotal resp) = Except.ok 0
  rw [hz]

/-- Witness for C10: one attempt, a delivered response whose `messages`
member lacks the `total` key. -/
theorem search_absent_count_is_zero_witness :
    search_messages_safe 1
      (fun _ => .resp (some ⟨some ⟨true, none⟩⟩)) = .ok 0 :=
  search_absent_count_is_zero 1 _ (some ⟨some ⟨true, none⟩⟩)
    (by decide) rfl (Or.inr ⟨_, rfl, Or.inr ⟨_, rfl, rfl⟩⟩)

/-! ## `aggregator._perform_aggregation`

`search_messages_safe` is abstracted as `srch : String → Except Nat Nat`:
`.ok n` is a returned count, `.error st` an exception propagating out of
the call (a non-429 `SlackApiError` re-raised by the client).  Besides
the emitted rows, the embedding records the trace of queries actually
dispatched through the client, in dispatch order. -/

structure UsageRow where
  emoji : String
  period : String
  count : Nat
deriving Repr, DecidableEq

/-- One iteration of the inner loop of `_perform_aggregation`: build the
two queries, run the text query then the reaction query, and emit
`[emoji, month_str, text+reaction]`; any exception from either execution
is caught and the pair degrades to a zero-count row.  The second
component is the list of queries dispatched: a text-query exception
prevents the reaction query from being dispatched. -/
def processPair (srch : String → Except Nat Nat) (e : String) (d : Date) :
    UsageRow × List String :=
  let q := build_monthly_queries e d
  match srch q.1 with
  | .error _ => (⟨e, monthLabel d, 0⟩, [q.1])
  | .ok tc =>
    match srch q.2 with
    | .error _ => (⟨e, monthLabel d, 0⟩, [q.1, q.2])
    | .ok rc => (⟨e, monthLabel d, tc + rc⟩, [q.1, q.2])

/-- `_perform_aggregation(emoji_list, month_periods)`: the two nested
`for` loops appending one record per (emoji, month) pair. -/
def perform_aggregation (srch : String → Except Nat Nat)
    (emojis : List String) (periods : List Date) : List UsageRow × List String :=
  emojis.foldl
    (fun acc e =>
      periods.foldl
        (fun acc2 d =>
          let pr := processPair srch e d
          (acc2.1 ++ [pr.1], acc2.2 ++ pr.2))
        acc)
    ([], [])

lemma inner_fold_eq (srch : String → Except Nat Nat) (e : String) :
    ∀ (ps : List Date) (acc : List UsageRow × List String),
      ps.foldl
        (fun acc2 d =>
          let pr := processPair srch e d
          (acc2.1 ++ [pr.1], acc2.2 ++ pr.2))
        acc =
      (acc.1 ++ ps.map (fun d => (processPair srch e d).1),
       acc.2 ++ ps.bind (fun d => (processPair srch e d).2)) := by
  intro ps
  induction ps with
  | nil => intro acc; simp
  | cons d ps ih =>
    intro acc
    rw [List.foldl_cons, ih]
    simp

lemma perform_aggregation_eq (srch : String → Except Nat Nat)
    (emojis : List String) (periods : List Date) :
    perform_aggregation srch emojis periods =
      (emojis.bind (fun e => periods.map (fun d => (processPair srch e d).1)),
       emojis.bind (fun e => periods.bind (fun d => (processPair srch e d).2))) := by
  unfold perform_aggregation
  suffices h : ∀ (es : List String) (acc : List UsageRow × List String),
      es.foldl
        (fun acc e =>
          periods.foldl
            (fun acc2 d =>
              let pr := processPair srch e d
              (acc2.1 ++ [pr.1], acc2.2 ++ pr.2))
            acc)
        acc =
      (acc.1 ++ es.bind (fun e => periods.map (fun d => (processPair srch e d).1)),
       acc.2 ++ es.bind (fun e => periods.bind (fun d => (processPair srch e d).2))) by
    rw [h emojis ([], [])]
    simp
  intro es
  induction es with
  | nil => intro acc; simp
  | cons e es ih =>
    intro acc
    rw [List.foldl_cons, inner_fold_eq, ih]
    simp

lemma length_bind_map (es : List String) (ps : List Date)
    (f : String → Date → UsageRow) :
    (es.bind (fun e => ps.map (f e))).length = es.length * ps.length := by
  induction es with
  | nil => simp
  | cons e es ih =>
    simp only [List.cons_bind, List.length_append, List.length_map, ih,
      List.length_cons]
    ring

/-- **C9.** The rows come out one per (symbol, period) pair, in
symbol-major period-minor order, never reordered or deduplicated (a
repeated symbol contributes its rows once per occurrence); each row
carries its own pair's symbol and period label, and when both query
executions succeed the row's count is the sum of the text-query and
reaction-query counts. -/
theorem aggregation_rows_order_and_sum (srch : String → Except Nat Nat)
    (emojis : List String) (periods : List Date) :
    (perform_aggregation srch emojis periods).1 =
      emojis.bind (fun e => periods.map (fun d => (processPair srch e d).1)) ∧
    (perform_aggregation srch emojis periods).1.length
      = emojis.length * periods.length ∧
    (∀ e d, ((processPair srch e d).1).emoji = e ∧
      ((processPair srch e d).1).period = monthLabel d) ∧
    (∀ e d tc rc,
      srch (build_monthly_queries e d).1 = .ok tc →
      srch (build_monthly_queries e d).2 = .ok rc →
      (processPair srch e d).1 = ⟨e, monthLabel d, tc + rc⟩) := by
  have hrows := congrArg Prod.fst (perform_aggregation_eq srch emojis periods)
  refine ⟨hrows, ?_, ?_, ?_⟩
  · rw [hrows]
    exact length_bind_map emojis periods (fun e d => (processPair srch e d).1)
  · intro e d
    cases h1 : srch (build_monthly_queries e d).1 with
    | error st => simp [processPair, h1]
    | ok tc =>
      cases h2 : srch (build_monthly_queries e d).2 with
      | error st => simp [processPair, h1, h2]
      | ok rc => simp [processPair, h1, h2]
  · intro e d tc rc htc hrc
    simp [processPair, htc, hrc]

/-- Witness for C9 (all-successful transport, a duplicated symbol). -/
theorem aggregation_rows_order_and_sum_witness :
    (perform_aggregation (fun _ => .ok 2) ["smile", "smile"] [⟨2023, 1, 1⟩]).1 =
      ["smile", "smile"].bind
        (fun e => [(⟨2023, 1, 1⟩ : Date)].map
          (fun d => (processPair (fun _ => .ok 2) e d).1)) ∧
    (perform_aggregation (fun _ => .ok 2) ["smile", "smile"] [⟨2023, 1, 1⟩]).1.length
      = (["smile", "smile"] : List String).length * ([⟨2023, 1, 1⟩] : List Date).length ∧
    (∀ e d, ((processPair (fun _ => .ok 2) e d).1).emoji = e ∧
      ((processPair (fun _ => .ok 2) e d).1).period = monthLabel d) ∧
    (∀ e d tc rc,
      (fun _ => (.ok 2 : Except Nat Nat)) (build_monthly_queries e d).1 = .ok tc →
      (fun _ => (.ok 2 : Except Nat Nat)) (build_monthly_queries e d).2 = .ok rc →
      (processPair (fun _ => .ok 2) e d).1 = ⟨e, monthLabel d, tc + rc⟩) :=
  aggregation_rows_order_and_sum (fun _ => .ok 2) ["smile", "smile"] [⟨2023, 1, 1⟩]

/-- **C2.** A pair whose query executions raise still yields exactly one
record, with count 0, and aggregation of all other pairs is unaffected:
the row list is always the full symbol-major/period-minor list, and any
pair whose text query raises, or whose text query succeeds and whose
reaction query raises, contributes the zero-count row for that pair. -/
theorem failing_pair_degrades_to_zero (srch : String → Except Nat Nat)
    (emojis : List String) (periods : List Date) :
    (perform_aggregation srch emojis periods).1 =
      emojis.bind (fun e => periods.map (fun d => (processPair srch e d).1)) ∧
    (∀ e d,
      ((∃ st, srch (build_monthly_queries e d).1 = .error st) ∨
       (∃ tc st, srch (build_monthly_queries e d).1 = .ok tc ∧
         srch (build_monthly_queries e d).2 = .error st)) →
      (processPair srch e d).1 = ⟨e, monthLabel d, 0⟩) := by
  refine ⟨congrArg Prod.fst (perform_aggregation_eq srch emojis periods), ?_⟩
  intro e d hfail
  rcases hfail with ⟨st, hst⟩ | ⟨tc, st, htc, hst⟩
  · simp [processPair, hst]
  · simp [processPair, htc, hst]

/-- Witness for C2: a transport raising on every query still yields the
zero row for the (single) pair. -/
theorem failing_pair_degrades_to_zero_witness :
    (perform_aggregation (fun _ => .error 500) ["smile"] [⟨2023, 1, 1⟩]).1 =
      ["smile"].bind
        (fun e => [(⟨2023, 1, 1⟩ : Date)].map
          (fun d => (processPair (fun _ => .error 500) e d).1)) ∧
    (∀ e d,
      ((∃ st, (fun _ => (.error 500 : Except Nat Nat)) (build_monthly_queries e d).1
          = .error st) ∨
       (∃ tc st, (fun _ => (.error 500 : Except Nat Nat)) (build_monthly_queries e d).1
          = .ok tc ∧
         (fun _ => (.error 500 : Except Nat Nat)) (build_monthly_queries e d).2
          = .error st)) →
      (processPair (fun _ => .error 500) e d).1 = ⟨e, monthLabel d, 0⟩) :=
  failing_pair_degrades_to_zero (fun _ => .error 500) ["smile"] [⟨2023, 1, 1⟩]

/-- Witness for C1 at `total_months = 6`, `interval_months = 3`,
current date 2023-07-15. -/
theorem generate_period_starts_spec_witness :
    (generate_period_starts 6 3 ⟨2023, 7, 15⟩).length = (6 + 3 - 1) / 3 ∧
    (∀ i, ∀ h : i < (generate_period_starts 6 3 ⟨2023, 7, 15⟩).length,
      (generate_period_starts 6 3 ⟨2023, 7, 15⟩).get ⟨i, h⟩ =
        firstDayMonthsBack ⟨2023, 7, 15⟩ ((i * 3 : Nat) : Int)) ∧
    List.Chain' (fun a b => dateLt b a) (generate_period_starts 6 3 ⟨2023, 7, 15⟩) :=
  generate_period_starts_spec 6 3 ⟨2023, 7, 15⟩ (by decide) (by decide)

/-! ## C4: query validation is not consulted by the aggregation -/

/-- **C4 (amended).** `validate_query` rejects over-long queries and
queries without the `:` delimiter, but `_perform_aggregation` never
consults it: every pair's text query is dispatched through the API
client unconditionally, and the dispatch trace is exactly the queries of
all pairs in order. -/
theorem queries_dispatched_without_validation (srch : String → Except Nat Nat)
    (emojis : List String) (periods : List Date) :
    (perform_aggregation srch emojis periods).2 =
      emojis.bind (fun e => periods.bind (fun d => (processPair srch e d).2)) ∧
    (∀ e d, (build_monthly_queries e d).1 ∈ (processPair srch e d).2) ∧
    (∀ q, q.length > 1000 → validate_query q = false) ∧
    (∀ q, q.contains ':' = false → validate_query q = false) := by
  refine ⟨congrArg Prod.snd (perform_aggregation_eq srch emojis periods), ?_, ?_, ?_⟩
  · intro e d
    cases h1 : srch (build_monthly_queries e d).1 with
    | error st => simp [processPair, h1]
    | ok tc =>
      cases h2 : srch (build_monthly_queries e d).2 with
      | error st => simp [processPair, h1, h2]
      | ok rc => simp [processPair, h1, h2]
  · intro q hq
    unfold validate_query
    split_ifs <;> rfl
  · intro q hq
    unfold validate_query
    split_ifs <;> simp_all

/-- Witness for C4 (amended): an all-successful transport, one pair. -/
theorem queries_dispatched_without_validation_witness :
    (perform_aggregation (fun _ => .ok 2) ["smile"] [⟨2023, 1, 1⟩]).2 =
      ["smile"].bind (fun e => [(⟨2023, 1, 1⟩ : Date)].bind
        (fun d => (processPair (fun _ => .ok 2) e d).2)) ∧
    (∀ e d, (build_monthly_queries e d).1 ∈ (processPair (fun _ => .ok 2) e d).2) ∧
    (∀ q, q.length > 1000 → validate_query q = false) ∧
    (∀ q, q.contains ':' = false → validate_query q = false) :=
  queries_dispatched_without_validation (fun _ => .ok 2) ["smile"] [⟨2023, 1, 1⟩]

set_option maxRecDepth 100000 in
/-- Counterexample to C4 as stated: for an emoji name of 1001 characters
the built text query fails `validate_query`, yet the aggregation still
dispatches both queries through the client (nonempty dispatch trace) and
records the transport's counts (10, not 0) for the pair. -/
theorem validation_not_checked_counterexample :
    validate_query
      (build_monthly_queries (String.mk (List.replicate 1001 'a')) ⟨2023, 1, 1⟩).1
        = false ∧
    (perform_aggregation (fun _ => .ok 5)
      [String.mk (List.replicate 1001 'a')] [⟨2023, 1, 1⟩]).2 ≠ [] ∧
    (perform_aggregation (fun _ => .ok 5)
      [String.mk (List.replicate 1001 'a')] [⟨2023, 1, 1⟩]).1 =
      [⟨String.mk (List.replicate 1001 'a'), "2023-01", 10⟩] := by
  refine ⟨by decide, by decide, by decide⟩

/-! ## `aggregator.aggregate_emoji_usage` (control flow and effects)

The run driver, with its collaborators made explicit: `validateOk` is
the result of `validate_output_path` (a filesystem check, no API
traffic), `emojis` the list resolved by `load_emojis`, `srch` the
transport.  The event trace records the outbound API calls in order
(`get_workspace_info` issues one team-info call; `load_emojis` issues
one emoji-list call when custom emojis are included; each search is one
call) and the final CSV write.  `backup_existing_file` touches only the
filesystem and never fails the run, so it contributes no event. -/

inductive RunEvent where
  | workspaceCall
  | emojiListCall
  | searchCall (q : String)
  | csvWrite
deriving Repr, DecidableEq

structure RunEnv where
  validateOk : Bool
  emojis : List String
  srch : String → Except Nat Nat
  months : Nat
  cur : Date

/-- `aggregate_emoji_usage`: validate the output path (abort on failure
before any API call), fetch workspace info, load the emoji list (abort
when empty), generate the month periods, aggregate, and write the CSV
(abort without writing when no records were generated). Returns the
success flag and the effect trace. -/
def aggregate_emoji_usage (env : RunEnv) (includeCustom : Bool) :
    Bool × List RunEvent :=
  if !env.validateOk then (false, [])
  else
    let tr1 := [RunEvent.workspaceCall]
      ++ (if includeCustom then [RunEvent.emojiListCall] else [])
    if env.emojis.isEmpty then (false, tr1)
    else
      let periods := generate_month_starts env.months env.cur
      let res := perform_aggregation env.srch env.emojis periods
      let tr2 := tr1 ++ res.2.map RunEvent.searchCall
      if res.1.isEmpty then (false, tr2)
      else (true, tr2 ++ [RunEvent.csvWrite])

/-- **C6 (amended).** A run failing output-path validation aborts before
any API traffic and writes nothing.  A run whose resolved emoji list is
empty aborts without writing output, but only after the workspace-info
call (API traffic) has been issued.  A run with a valid path, a nonempty
emoji list and at least one month terminates successfully with the
report written. -/
theorem run_failure_modes (env : RunEnv) (ic : Bool) :
    (env.validateOk = false → aggregate_emoji_usage env ic = (false, [])) ∧
    (env.validateOk = true → env.emojis = [] →
      (aggregate_emoji_usage env ic).1 = false ∧
      RunEvent.csvWrite ∉ (aggregate_emoji_usage env ic).2 ∧
      RunEvent.workspaceCall ∈ (aggregate_emoji_usage env ic).2) ∧
    (env.validateOk = true → env.emojis ≠ [] → 1 ≤ env.months →
      (aggregate_emoji_usage env ic).1 = true ∧
      RunEvent.csvWrite ∈ (aggregate_emoji_usage env ic).2) := by
  refine ⟨?_, ?_, ?_⟩
  · intro h
    simp [aggregate_emoji_usage, h]
  · intro h1 h2
    cases ic <;> simp [aggregate_emoji_usage, h1, h2]
  · intro h1 h2 h3
    have hemo : env.emojis.isEmpty = false := by
      cases hl : env.emojis with
      | nil => exact absurd hl h2
      | cons a l => rfl
    have hlen : (perform_aggregation env.srch env.emojis
        (generate_month_starts env.months env.cur)).1.length
        = env.emojis.length * env.months := by
      rw [congrArg Prod.fst (perform_aggregation_eq env.srch env.emojis
        (generate_month_starts env.months env.cur))]
      rw [length_bind_map]
      simp [generate_month_starts]
    have hpos : 0 < (perform_aggregation env.srch env.emojis
        (generate_month_starts env.months env.cur)).1.length := by
      rw [hlen]
      have : 0 < env.emojis.length := by
        cases hl : env.emojis with
        | nil => exact absurd hl h2
        | cons a l => simp
      exact Nat.mul_pos this h3
    have hrne : (perform_aggregation env.srch env.emojis
        (generate_month_starts env.months env.cur)).1.isEmpty = false := by
      cases hl : (perform_aggregation env.srch env.emojis
          (generate_month_starts env.months env.cur)).1 with
      | nil => rw [hl] at hpos; simp at hpos
      | cons a l => rfl
    cases ic <;> simp [aggregate_emoji_usage, h1, hemo, hrne]

/-- Witness for C6 (amended): a valid path, one emoji, one month. -/
theorem run_failure_modes_witness :
    ((⟨true, ["smile"], fun _ => .ok 0, 1, ⟨2023, 1, 1⟩⟩ : RunEnv).validateOk = false →
      aggregate_emoji_usage ⟨true, ["smile"], fun _ => .ok 0, 1, ⟨2023, 1, 1⟩⟩ false
        = (false, [])) ∧
    ((⟨true, ["smile"], fun _ => .ok 0, 1, ⟨2023, 1, 1⟩⟩ : RunEnv).validateOk = true →
      (⟨true, ["smile"], fun _ => .ok 0, 1, ⟨2023, 1, 1⟩⟩ : RunEnv).emojis = [] →
      (aggregate_emoji_usage ⟨true, ["smile"], fun _ => .ok 0, 1, ⟨2023, 1, 1⟩⟩ false).1
        = false ∧
      RunEvent.csvWrite ∉
        (aggregate_emoji_usage ⟨true, ["smile"], fun _ => .ok 0, 1, ⟨2023, 1, 1⟩⟩ false).2 ∧
      RunEvent.workspaceCall ∈
        (aggregate_emoji_usage ⟨true, ["smile"], fun _ => .ok 0, 1, ⟨2023, 1, 1⟩⟩ false).2) ∧
    ((⟨true, ["smile"], fun _ => .ok 0, 1, ⟨2023, 1, 1⟩⟩ : RunEnv).validateOk = true →
      (⟨true, ["smile"], fun _ => .ok 0, 1, ⟨2023, 1, 1⟩⟩ : RunEnv).emojis ≠ [] →
      1 ≤ (⟨true, ["smile"], fun _ => .ok 0, 1, ⟨2023, 1, 1⟩⟩ : RunEnv).months →
      (aggregate_emoji_usage ⟨true, ["smile"], fun _ => .ok 0, 1, ⟨2023, 1, 1⟩⟩ false).1
        = true ∧
      RunEvent.csvWrite ∈
        (aggregate_emoji_usage ⟨true, ["smile"], fun _ => .ok 0, 1, ⟨2023, 1, 1⟩⟩ false).2) :=
  run_failure_modes ⟨true, ["smile"], fun _ => .ok 0, 1, ⟨2023, 1, 1⟩⟩ false

/-- Counterexample to C6 as stated: a run with a valid output path but an
empty resolved emoji list fails, and writes nothing, yet its trace is
nonempty — the workspace-info API call was already issued before the
catalog-empty abort, contradicting "fails before any API traffic". -/
theorem catalog_empty_after_traffic_counterexample :
    (aggregate_emoji_usage ⟨true, [], fun _ => .ok 0, 1, ⟨2023, 1, 1⟩⟩ false).1
      = false ∧
    RunEvent.csvWrite ∉
      (aggregate_emoji_usage ⟨true, [], fun _ => .ok 0, 1, ⟨2023, 1, 1⟩⟩ false).2 ∧
    (aggregate_emoji_usage ⟨true, [], fun _ => .ok 0, 1, ⟨2023, 1, 1⟩⟩ false).2 ≠ [] ∧
    RunEvent.workspaceCall ∈
      (aggregate_emoji_usage ⟨true, [], fun _ => .ok 0, 1, ⟨2023, 1, 1⟩⟩ false).2 := by
  decide

/-! ## `csv_writer`: the pivot builder

Input records are `[emoji_name, period, usage_count]` lists; the first
two entries are strings (non-string keys would make the later `sorted()`
raise and occur nowhere in this program), the count is an arbitrary
Python value modelled by `PyCount`.  The `len(record) != 3` guard is
absorbed by the record structure.  `int(x)` is `pyInt` (digit-grouping
underscores of Python literals are not modelled).  Python dicts are
insertion-ordered association lists; `defaultdict(dict)` insertion is
`insertRec`, the `periods` set an insertion-ordered duplicate-free
list (only its sorted image is ever observed). -/

inductive PyCount where
  | int (n : Int)
  | str (s : String)
  | null
deriving Repr, DecidableEq

/-- Value of a nonempty all-digit character list. -/
def parseDigits (cs : List Char) : Option Nat :=
  if cs.isEmpty then none
  else if cs.all Char.isDigit then
    some (cs.foldl (fun a c => 10 * a + (c.toNat - 48)) 0)
  else none

/-- Python `int(s)` on a string: strip surrounding whitespace, optional
sign, decimal digits; anything else raises `ValueError` (`none`). -/
def pyIntOfString (s : String) : Option Int :=
  let cs := ((s.data.dropWhile Char.isWhitespace).reverse.dropWhile
    Char.isWhitespace).reverse
  match cs with
  | '-' :: rest => (parseDigits rest).map (fun n => -(n : Int))
  | '+' :: rest => (parseDigits rest).map (fun n => (n : Int))
  | _ => (parseDigits cs).map (fun n => (n : Int))

/-- Python `int(x)` as used on the count entry; `None` raises
`TypeError` (`none`). -/
def pyInt : PyCount → Option Int
  | .int n => some n
  | .str s => pyIntOfString s
  | .null => none

structure RawRec where
  emoji : String
  period : String
  count : PyCount
deriving Repr, DecidableEq

/-- `d[k] = v` on an insertion-ordered dict: overwrite in place or
append at the end. -/
def upsert (k : String) (v : Int) : List (String × Int) → List (String × Int)
  | [] => [(k, v)]
  | (k2, v2) :: rest =>
    if k2 == k then (k2, v) :: rest else (k2, v2) :: upsert k v rest

/-- `data[emoji][period] = n` on the `defaultdict(dict)`. -/
def insertRec (e p : String) (n : Int) :
    List (String × List (String × Int)) → List (String × List (String × Int))
  | [] => [(e, [(p, n)])]
  | (e2, m) :: rest =>
    if e2 == e then (e2, upsert p n m) :: rest else (e2, m) :: insertRec e p n rest

/-- `periods.add(p)`. -/
def insertPeriod (p : String) : List String → List String
  | [] => [p]
  | q :: rest => if q == p then q :: rest else q :: insertPeriod p rest

structure PivotData where
  data : List (String × List (String × Int))
  periods : List String
deriving Repr, DecidableEq

/-- One record of `_convert_to_pivot`: records whose count `int()`
conversion raises are skipped (logged), all others are inserted. -/
def convertStep (pd : PivotData) (r : RawRec) : PivotData :=
  match pyInt r.count with
  | some n => ⟨insertRec r.emoji r.period n pd.data, insertPeriod r.period pd.periods⟩
  | none => pd

/-- `_convert_to_pivot(records)`. -/
def convert_to_pivot (records : List RawRec) : PivotData :=
  records.foldl convertStep ⟨[], []⟩

/-- A CSV cell: strings are written as-is, ints in decimal. -/
inductive Cell where
  | str (s : String)
  | int (n : Int)
deriving Repr, DecidableEq

/-- `emoji_data.get(period, 0)`. -/
def lookupD (m : List (String × Int)) (p : String) : Int :=
  match m.find? (fun kv => kv.1 == p) with
  | some kv => kv.2
  | none => 0

/-- `max(emoji_data.keys(), key=lambda p: emoji_data[p])` for a nonempty
dict (`""` for an empty one): the first key attaining the maximal value,
in insertion order. -/
def argmaxAList (m : List (String × Int)) : String :=
  match m with
  | [] => ""
  | kv :: rest => (rest.foldl (fun best kv2 => if kv2.2 > best.2 then kv2 else best) kv).1

/-- Round `a / b` (with `b > 0`) to the nearest integer, ties to even —
the rounding `f"{x:.1f}"` applies (on the exact rational value; the
binary-float detour of the Python runtime is exact on all values this
development evaluates it at). -/
def roundHalfEven (a : Int) (b : Nat) : Int :=
  let q := a / (b : Int)
  let r := a % (b : Int)
  if 2 * r < (b : Int) then q
  else if 2 * r > (b : Int) then q + 1
  else if q % 2 = 0 then q else q + 1

/-- Decimal rendering of a number of tenths, one decimal place. -/
def fmtTenths (t : Int) : String :=
  (if t < 0 then "-" else "") ++ toString (t.natAbs / 10) ++ "." ++ toString (t.natAbs % 10)

/-- `f"{total / n:.1f}"`. -/
def fmtAvg (total : Int) (n : Nat) : String :=
  fmtTenths (roundHalfEven (10 * total) n)

/-- Lexicographic strict order on character lists (Python string `<`:
code-point comparison, a proper prefix is smaller). -/
def lexLt : List Char → List Char → Bool
  | [], [] => false
  | [], _ :: _ => true
  | _ :: _, [] => false
  | a :: as, b :: bs => if a < b then true else if b < a then false else lexLt as bs

/-- Python string `<`. -/
def pyLt (a b : String) : Bool := lexLt a.data b.data

/-- Python string `<=`. -/
def pyLe (a b : String) : Bool := pyLt a b || a == b

/-- `sorted()` on strings: stable ascending sort in the code-point
lexicographic order. -/
def sortStr (l : List String) : List String :=
  List.insertionSort (fun a b => pyLe a b = true) l

/-- `sorted(pivot_data["data"].items())`: tuple comparison starts at the
key; keys are pairwise distinct so the comparison never reaches the
values. -/
def sortData (l : List (String × List (String × Int))) :
    List (String × List (String × Int)) :=
  List.insertionSort (fun a b => pyLe a.1 b.1 = true) l

/-- One data row of `_write_pivot_csv`: the emoji, one count per
rendered period (absent entries as 0), their sum, the one-decimal
average over the rendered periods, and the max period. -/
def pivotRow (periods : List String) (e : String) (m : List (String × Int)) :
    List Cell :=
  let vals := periods.map (lookupD m)
  Cell.str e :: vals.map Cell.int
    ++ [Cell.int vals.sum, Cell.str (fmtAvg vals.sum periods.length),
        Cell.str (argmaxAList m)]

/-- `_write_pivot_summary`: the `TOTAL` row (the preceding blank row is
emitted by the caller). -/
def totalRow (data : List (String × List (String × Int))) (periods : List String) :
    List Cell :=
  let pts := periods.map (fun p => (data.map (fun em => lookupD em.2 p)).sum)
  Cell.str "TOTAL" :: pts.map Cell.int
    ++ [Cell.int pts.sum, Cell.str (fmtAvg pts.sum periods.length), Cell.str ""]

/-- `_write_pivot_csv(records)` as the list of rows written: the header,
one row per emoji in sorted order, a blank row, and the `TOTAL` row;
when no periods were collected, only the degenerate `[emoji, total]`
header. -/
def write_pivot_rows (records : List RawRec) : List (List Cell) :=
  let pd := convert_to_pivot records
  if pd.periods.isEmpty then
    [[Cell.str "emoji", Cell.str "total"]]
  else
    let periods := sortStr pd.periods
    let header := Cell.str "emoji" :: periods.map Cell.str
      ++ [Cell.str "total", Cell.str "average", Cell.str "max_period"]
    let dataRows := (sortData pd.data).map (fun em => pivotRow periods em.1 em.2)
    header :: dataRows ++ [[]] ++ [totalRow pd.data periods]

/-- The count the rendered table shows for symbol `e` at period `p`,
read directly off the input records (the claim-side description): the
unique record with that symbol and period when present, otherwise 0. -/
def specCount (records : List RawRec) (e p : String) : Int :=
  match records.find? (fun r => r.emoji == e && r.period == p) with
  | some r => (pyInt r.count).getD 0
  | none => 0

/-- The per-symbol dict held by the pivot data for key `e` (`[]` when
absent). -/
def assocOf (data : List (String × List (String × Int))) (e : String) :
    List (String × Int) :=
  match data.find? (fun em => em.1 == e) with
  | some em => em.2
  | none => []

/-! C5: records with unconvertible counts are skipped, all others kept. -/

/-- **C5 (amended).** A record whose count `int()` cannot convert (a
non-numeric string, `None`) is skipped — non-fatally: the pivot of the
remaining records is unchanged.  A record whose count converts to any
integer, negative ones included, is inserted into the pivot. -/
theorem unconvertible_count_skipped (l1 l2 : List RawRec) (r : RawRec) :
    (pyInt r.count = none →
      convert_to_pivot (l1 ++ r :: l2) = convert_to_pivot (l1 ++ l2)) ∧
    (∀ n, pyInt r.count = some n →
      convert_to_pivot [r] = ⟨[(r.emoji, [(r.period, n)])], [r.period]⟩) := by
  constructor
  · intro h
    unfold convert_to_pivot
    rw [List.foldl_append, List.foldl_append, List.foldl_cons]
    have hstep : convertStep (List.foldl convertStep ⟨[], []⟩ l1) r
        = List.foldl convertStep ⟨[], []⟩ l1 := by
      simp [convertStep, h]
    rw [hstep]
  · intro n h
    simp [convert_to_pivot, convertStep, h, insertRec, insertPeriod]

/-- Witness for C5 (amended): a `None` count in the middle of a record
list is dropped without affecting the rest; a record with count −7 is
inserted. -/
theorem unconvertible_count_skipped_witness :
    convert_to_pivot ([⟨"a", "2023-01", PyCount.int 1⟩] ++
        ⟨"x", "2023-02", PyCount.null⟩ :: [⟨"b", "2023-03", PyCount.int 2⟩]) =
      convert_to_pivot ([⟨"a", "2023-01", PyCount.int 1⟩] ++
        [⟨"b", "2023-03", PyCount.int 2⟩]) ∧
    convert_to_pivot [⟨"y", "2023-04", PyCount.int (-7)⟩] =
      ⟨[("y", [("2023-04", -7)])], ["2023-04"]⟩ :=
  ⟨(unconvertible_count_skipped [⟨"a", "2023-01", PyCount.int 1⟩]
      [⟨"b", "2023-03", PyCount.int 2⟩] ⟨"x", "2023-02", PyCount.null⟩).1 rfl,
   (unconvertible_count_skipped [] [] ⟨"y", "2023-04", PyCount.int (-7)⟩).2
      (-7) rfl⟩

/-- Counterexample to C5 as stated: the count `"-5"` parses to the
negative integer −5 and the record is **not** skipped — it appears in
the pivot data and in the rendered table. -/
theorem negative_count_rendered_counterexample :
    pyInt (PyCount.str "-5") = some (-5) ∧
    convert_to_pivot [⟨"x", "2023-01", PyCount.str "-5"⟩] =
      ⟨[("x", [("2023-01", -5)])], ["2023-01"]⟩ ∧
    write_pivot_rows [⟨"x", "2023-01", PyCount.str "-5"⟩] =
      [[Cell.str "emoji", Cell.str "2023-01", Cell.str "total",
        Cell.str "average", Cell.str "max_period"],
       [Cell.str "x", Cell.int (-5), Cell.int (-5), Cell.str "-5.0",
        Cell.str "2023-01"],
       [],
       [Cell.str "TOTAL", Cell.int (-5), Cell.int (-5), Cell.str "-5.0",
        Cell.str ""]] := by
  refine ⟨by decide, by decide, by decide⟩

/-! Dictionary-insertion lemmas for the pivot refinement. -/

lemma upsert_of_not_mem (p : String) (n : Int) :
    ∀ m : List (String × Int), p ∉ m.map Prod.fst →
      upsert p n m = m ++ [(p, n)] := by
  intro m
  induction m with
  | nil => intro _; rfl
  | cons kv rest ih =>
    intro h
    obtain ⟨k2, v2⟩ := kv
    simp only [List.map_cons, List.mem_cons, not_or] at h
    rw [upsert, if_neg (by simp [beq_iff_eq]; exact fun hh => h.1 hh.symm), ih h.2]
    rfl

lemma assocOf_cons (k : String) (m : List (String × Int))
    (rest : List (String × List (String × Int))) (e : String) :
    assocOf ((k, m) :: rest) e = if k == e then m else assocOf rest e := by
  by_cases h : k = e
  · subst h
    simp [assocOf, List.find?_cons]
  · have hb : (k == e) = false := by simpa using h
    simp [assocOf, List.find?_cons, hb]

lemma assocOf_insertRec_self (e p : String) (n : Int) :
    ∀ data, assocOf (insertRec e p n data) e = upsert p n (assocOf data e) := by
  intro data
  induction data with
  | nil => simp [insertRec, assocOf, upsert]
  | cons em rest ih =>
    obtain ⟨e2, m⟩ := em
    by_cases h : e2 = e
    · subst h
      simp [insertRec, assocOf_cons]
    · have hb : (e2 == e) = false := by simpa using h
      simp [insertRec, assocOf_cons, hb, ih]

lemma assocOf_insertRec_other (e p : String) (n : Int) (e2 : String) (hne : e2 ≠ e) :
    ∀ data, assocOf (insertRec e p n data) e2 = assocOf data e2 := by
  intro data
  have hb : (e == e2) = false := by simpa using Ne.symm hne
  induction data with
  | nil => simp [insertRec, assocOf, List.find?_cons, hb]
  | cons em rest ih =>
    obtain ⟨e3, m⟩ := em
    by_cases h : e3 = e
    · subst h
      simp [insertRec, assocOf_cons, hb]
    · have hb2 : (e3 == e) = false := by simpa using h
      simp [insertRec, assocOf_cons, hb2, ih]

lemma insertRec_keys (e p : String) (n : Int) :
    ∀ data, (insertRec e p n data).map Prod.fst =
      if e ∈ data.map Prod.fst then data.map Prod.fst
      else data.map Prod.fst ++ [e] := by
  intro data
  induction data with
  | nil => simp [insertRec]
  | cons em rest ih =>
    obtain ⟨e2, m⟩ := em
    by_cases h : e2 = e
    · subst h
      simp [insertRec, List.mem_cons]
    · have hb : (e2 == e) = false := by simpa using h
      simp only [insertRec, hb, Bool.false_eq_true, if_false, List.map_cons, ih,
        List.mem_cons]
      by_cases h2 : e ∈ rest.map Prod.fst
      · simp [h2, Ne.symm h]
      · simp [h2, Ne.symm h]

lemma insertPeriod_eq (p : String) :
    ∀ l, insertPeriod p l = if p ∈ l then l else l ++ [p] := by
  intro l
  induction l with
  | nil => simp [insertPeriod]
  | cons q rest ih =>
    by_cases h : q = p
    · subst h
      simp [insertPeriod, List.mem_cons]
    · have hb : (q == p) = false := by simpa using h
      simp only [insertPeriod, hb, Bool.false_eq_true, if_false, ih, List.mem_cons]
      by_cases h2 : p ∈ rest
      · simp [h2, Ne.symm h]
      · simp [h2, Ne.symm h]

lemma insertPeriod_nodup (p : String) (l : List String) (h : l.Nodup) :
    (insertPeriod p l).Nodup := by
  rw [insertPeriod_eq]
  by_cases h2 : p ∈ l
  · simpa [h2]
  · simp only [if_neg h2]
    simpa [List.nodup_append, h2] using h

lemma convert_append_singleton (l : List RawRec) (r : RawRec) :
    convert_to_pivot (l ++ [r]) = convertStep (convert_to_pivot l) r := by
  simp [convert_to_pivot, List.foldl_append]

lemma mem_insertPeriod (p q : String) (l : List String) :
    q ∈ insertPeriod p l ↔ q ∈ l ∨ q = p := by
  rw [insertPeriod_eq]
  by_cases h : p ∈ l
  · simp only [if_pos h]
    constructor
    · exact Or.inl
    · rintro (hq | rfl)
      · exact hq
      · exact h
  · simp [if_neg h, List.mem_append]

lemma mem_insertRec_keys (e p : String) (n : Int)
    (data : List (String × List (String × Int))) (e2 : String) :
    e2 ∈ (insertRec e p n data).map Prod.fst ↔
      e2 ∈ data.map Prod.fst ∨ e2 = e := by
  rw [insertRec_keys]
  by_cases h : e ∈ data.map Prod.fst
  · simp only [if_pos h]
    constructor
    · exact Or.inl
    · rintro (hq | rfl)
      · exact hq
      · exact h
  · simp [if_neg h, List.mem_append]

lemma insertRec_keys_nodup (e p : String) (n : Int)
    (data : List (String × List (String × Int)))
    (h : (data.map Prod.fst).Nodup) :
    ((insertRec e p n data).map Prod.fst).Nodup := by
  rw [insertRec_keys]
  by_cases h2 : e ∈ data.map Prod.fst
  · simpa [h2]
  · simp only [if_neg h2]
    simpa [List.nodup_append, h2] using h

lemma convert_periods_mem (records : List RawRec) (p : String) :
    p ∈ (convert_to_pivot records).periods ↔
      ∃ r ∈ records, (pyInt r.count).isSome ∧ r.period = p := by
  induction records using List.reverseRecOn with
  | nil => simp [convert_to_pivot]
  | append_singleton l r ih =>
    rw [convert_append_singleton]
    cases hc : pyInt r.count with
    | none =>
      simp only [convertStep, hc]
      rw [ih]
      constructor
      · rintro ⟨r2, h2, hs, hp⟩
        exact ⟨r2, by simp [h2], hs, hp⟩
      · rintro ⟨r2, h2, hs, hp⟩
        rcases List.mem_append.mp h2 with h3 | h3
        · exact ⟨r2, h3, hs, hp⟩
        · simp only [List.mem_singleton] at h3
          subst h3
          rw [hc] at hs
          simp at hs
    | some n =>
      simp only [convertStep, hc]
      rw [mem_insertPeriod, ih]
      constructor
      · rintro (⟨r2, h2, hs, hp⟩ | rfl)
        · exact ⟨r2, by simp [h2], hs, hp⟩
        · exact ⟨r, by simp, by simp [hc], rfl⟩
      · rintro ⟨r2, h2, hs, hp⟩
        rcases List.mem_append.mp h2 with h3 | h3
        · exact Or.inl ⟨r2, h3, hs, hp⟩
        · simp only [List.mem_singleton] at h3
          subst h3
          exact Or.inr hp.symm

lemma convert_periods_nodup (records : List RawRec) :
    (convert_to_pivot records).periods.Nodup := by
  induction records using List.reverseRecOn with
  | nil => simp [convert_to_pivot]
  | append_singleton l r ih =>
    rw [convert_append_singleton]
    cases hc : pyInt r.count with
    | none => simpa [convertStep, hc] using ih
    | some n =>
      simp only [convertStep, hc]
      exact insertPeriod_nodup _ _ ih

lemma convert_keys_mem (records : List RawRec) (e : String) :
    e ∈ (convert_to_pivot records).data.map Prod.fst ↔
      ∃ r ∈ records, (pyInt r.count).isSome ∧ r.emoji = e := by
  induction records using List.reverseRecOn with
  | nil => simp [convert_to_pivot]
  | append_singleton l r ih =>
    rw [convert_append_singleton]
    cases hc : pyInt r.count with
    | none =>
      simp only [convertStep, hc]
      rw [ih]
      constructor
      · rintro ⟨r2, h2, hs, hp⟩
        exact ⟨r2, by simp [h2], hs, hp⟩
      · rintro ⟨r2, h2, hs, hp⟩
        rcases List.mem_append.mp h2 with h3 | h3
        · exact ⟨r2, h3, hs, hp⟩
        · simp only [List.mem_singleton] at h3
          subst h3
          rw [hc] at hs
          simp at hs
    | some n =>
      simp only [convertStep, hc]
      rw [mem_insertRec_keys, ih]
      constructor
      · rintro (⟨r2, h2, hs, hp⟩ | rfl)
        · exact ⟨r2, by simp [h2], hs, hp⟩
        · exact ⟨r, by simp, by simp [hc], rfl⟩
      · rintro ⟨r2, h2, hs, hp⟩
        rcases List.mem_append.mp h2 with h3 | h3
        · exact Or.inl ⟨r2, h3, hs, hp⟩
        · simp only [List.mem_singleton] at h3
          subst h3
          exact Or.inr hp.symm

lemma convert_keys_nodup (records : List RawRec) :
    ((convert_to_pivot records).data.map Prod.fst).Nodup := by
  induction records using List.reverseRecOn with
  | nil => simp [convert_to_pivot]
  | append_singleton l r ih =>
    rw [convert_append_singleton]
    cases hc : pyInt r.count with
    | none => simpa [convertStep, hc] using ih
    | some n =>
      simp only [convertStep, hc]
      exact insertRec_keys_nodup _ _ _ _ ih

/-- The (period, count) pairs of one symbol, read off the records in
encounter order — the claim-side description of the symbol's pivot data. -/
def symData (records : List RawRec) (e : String) : List (String × Int) :=
  (records.filter (fun r => (pyInt r.count).isSome && r.emoji == e)).map
    (fun r => (r.period, (pyInt r.count).getD 0))

lemma symData_cons (r : RawRec) (rest : List RawRec) (e : String) :
    symData (r :: rest) e =
      if (pyInt r.count).isSome && r.emoji == e
      then (r.period, (pyInt r.count).getD 0) :: symData rest e
      else symData rest e := by
  cases h : ((pyInt r.count).isSome && r.emoji == e) with
  | true => simp [symData, List.filter_cons, h]
  | false => simp [symData, List.filter_cons, h]

lemma specCount_cons (r : RawRec) (rest : List RawRec) (e p : String) :
    specCount (r :: rest) e p =
      if r.emoji == e && r.period == p then (pyInt r.count).getD 0
      else specCount rest e p := by
  cases h : (r.emoji == e && r.period == p) with
  | true => simp [specCount, List.find?_cons, h]
  | false => simp [specCount, List.find?_cons, h]

lemma lookupD_cons (k : String) (v : Int) (m : List (String × Int)) (p : String) :
    lookupD ((k, v) :: m) p = if k == p then v else lookupD m p := by
  by_cases h : k = p
  · subst h
    simp [lookupD, List.find?_cons]
  · have hb : (k == p) = false := by simpa using h
    simp [lookupD, List.find?_cons, hb]

lemma specCount_eq_zero (rest : List RawRec) (e p : String)
    (h : (e, p) ∉ rest.map (fun r => (r.emoji, r.period))) :
    specCount rest e p = 0 := by
  have hf : rest.find? (fun r => r.emoji == e && r.period == p) = none := by
    rw [List.find?_eq_none]
    intro r hr hcond
    simp only [Bool.and_eq_true, beq_iff_eq] at hcond
    exact h (List.mem_map.mpr ⟨r, hr, by rw [hcond.1, hcond.2]⟩)
  simp [specCount, hf]

lemma lookupD_symData (e p : String) :
    ∀ records : List RawRec,
      (records.map (fun r => (r.emoji, r.period))).Nodup →
      lookupD (symData records e) p = specCount records e p := by
  intro records
  induction records with
  | nil => intro _; simp [symData, specCount, lookupD]
  | cons r rest ih =>
    intro hnd
    rw [List.map_cons, List.nodup_cons] at hnd
    obtain ⟨hkey, hnd2⟩ := hnd
    rw [symData_cons, specCount_cons]
    by_cases he : r.emoji = e
    · subst he
      by_cases hp : r.period = p
      · subst hp
        cases hc : pyInt r.count with
        | some n => simp [hc, lookupD_cons]
        | none =>
          have h0 := specCount_eq_zero rest r.emoji r.period hkey
          simp [hc, ih hnd2, h0]
      · have hb : (r.period == p) = false := by simpa using hp
        cases hc : pyInt r.count with
        | some n => simp [hc, hb, lookupD_cons, ih hnd2]
        | none => simp [hc, hb, ih hnd2]
    · have hbe : (r.emoji == e) = false := by simpa using he
      simp [hbe, ih hnd2]

lemma convert_assoc (e : String) :
    ∀ records : List RawRec,
      (records.map (fun r => (r.emoji, r.period))).Nodup →
      assocOf (convert_to_pivot records).data e = symData records e := by
  intro records
  induction records using List.reverseRecOn with
  | nil => intro _; simp [convert_to_pivot, assocOf, symData]
  | append_singleton l r ih =>
    intro hnd
    rw [List.map_append, List.nodup_append] at hnd
    obtain ⟨hnd2, _, hdisj⟩ := hnd
    have hkey : (r.emoji, r.period) ∉ l.map (fun r2 => (r2.emoji, r2.period)) :=
      fun hmem => hdisj hmem (by simp)
    rw [convert_append_singleton]
    cases hc : pyInt r.count with
    | none =>
      simp only [convertStep, hc]
      rw [ih hnd2]
      unfold symData
      rw [List.filter_append]
      have hfr : List.filter (fun r2 => (pyInt r2.count).isSome && r2.emoji == e) [r]
          = [] := by
        simp [List.filter_cons, hc]
      rw [hfr, List.append_nil]
    | some n =>
      simp only [convertStep, hc]
      by_cases he : r.emoji = e
      · subst he
        rw [assocOf_insertRec_self, ih hnd2]
        have hnp : r.period ∉ (symData l r.emoji).map Prod.fst := by
          intro hmem
          simp only [symData, List.map_map, List.mem_map, Function.comp] at hmem
          obtain ⟨r2, hr2, hp⟩ := hmem
          have hr2l : r2 ∈ l := List.mem_of_mem_filter hr2
          have hcond := List.of_mem_filter hr2
          simp only [Bool.and_eq_true, beq_iff_eq] at hcond
          exact hkey (List.mem_map.mpr ⟨r2, hr2l, by rw [hcond.2, hp]⟩)
        rw [upsert_of_not_mem _ _ _ hnp]
        unfold symData
        rw [List.filter_append, List.map_append]
        congr 1
        simp [List.filter_cons, hc]
      · rw [assocOf_insertRec_other _ _ _ _ (Ne.symm he), ih hnd2]
        unfold symData
        rw [List.filter_append]
        have hbe : (r.emoji == e) = false := by simpa using he
        have hfr : List.filter (fun r2 => (pyInt r2.count).isSome && r2.emoji == e) [r]
            = [] := by
          simp [List.filter_cons, hc, hbe]
        rw [hfr, List.append_nil]

lemma argmax_foldl_spec :
    ∀ (rest : List (String × Int)) (b : String × Int),
      (rest.foldl (fun best kv2 => if kv2.2 > best.2 then kv2 else best) b = b ∨
        rest.foldl (fun best kv2 => if kv2.2 > best.2 then kv2 else best) b ∈ rest) ∧
      b.2 ≤ (rest.foldl (fun best kv2 => if kv2.2 > best.2 then kv2 else best) b).2 ∧
      (∀ kv ∈ rest,
        kv.2 ≤ (rest.foldl (fun best kv2 => if kv2.2 > best.2 then kv2 else best) b).2) := by
  intro rest
  induction rest with
  | nil => intro b; simp
  | cons kv2 rest ih =>
    intro b
    rw [List.foldl_cons]
    obtain ⟨ih1, ih2, ih3⟩ := ih (if kv2.2 > b.2 then kv2 else b)
    refine ⟨?_, ?_, ?_⟩
    · rcases ih1 with h | h
      · rw [h]
        split_ifs with hgt
        · exact Or.inr (List.mem_cons_self _ _)
        · exact Or.inl rfl
      · exact Or.inr (List.mem_cons_of_mem _ h)
    · refine le_trans ?_ ih2
      split_ifs with hgt
      · exact le_of_lt hgt
      · exact le_refl _
    · intro kv hkv
      rcases List.mem_cons.mp hkv with rfl | hkv2
      · refine le_trans ?_ ih2
        split_ifs with hgt
        · exact le_refl _
        · exact le_of_not_lt hgt
      · exact ih3 kv hkv2

lemma argmaxAList_spec (m : List (String × Int)) (hm : m ≠ []) :
    ∃ v, (argmaxAList m, v) ∈ m ∧ ∀ kv ∈ m, kv.2 ≤ v := by
  cases m with
  | nil => exact absurd rfl hm
  | cons kv rest =>
    obtain ⟨h1, h2, h3⟩ := argmax_foldl_spec rest kv
    refine ⟨(rest.foldl (fun best kv2 => if kv2.2 > best.2 then kv2 else best) kv).2,
      ?_, ?_⟩
    · show ((rest.foldl (fun best kv2 => if kv2.2 > best.2 then kv2 else best) kv).1,
        (rest.foldl (fun best kv2 => if kv2.2 > best.2 then kv2 else best) kv).2)
          ∈ kv :: rest
      rcases h1 with h | h
      · rw [h]
        exact List.mem_cons_self _ _
      · exact List.mem_cons_of_mem _ (by simpa using h)
    · intro kv3 hkv3
      rcases List.mem_cons.mp hkv3 with rfl | h
      · exact h2
      · exact h3 _ h

lemma lexLt_cons (a b : Char) (as bs : List Char) :
    lexLt (a :: as) (b :: bs) = true ↔
      a < b ∨ (a = b ∧ lexLt as bs = true) := by
  show (if a < b then true else if b < a then false else lexLt as bs) = true ↔ _
  split_ifs with h1 h2
  · simp [h1]
  · constructor
    · intro hF
      simp at hF
    · rintro (h | ⟨rfl, _⟩)
      · exact absurd h h1
      · exact absurd h2 (lt_irrefl a)
  · have heq : a = b := le_antisymm (le_of_not_lt h2) (le_of_not_lt h1)
    subst heq
    simp [lt_irrefl]

lemma lexLt_trans :
    ∀ as bs cs : List Char,
      lexLt as bs = true → lexLt bs cs = true → lexLt as cs = true := by
  intro as
  induction as with
  | nil =>
    intro bs cs h1 h2
    cases bs with
    | nil => exact h2
    | cons b bs =>
      cases cs with
      | nil => simp [lexLt] at h2
      | cons c cs => rfl
  | cons a as ih =>
    intro bs cs h1 h2
    cases bs with
    | nil => simp [lexLt] at h1
    | cons b bs =>
      cases cs with
      | nil => simp [lexLt] at h2
      | cons c cs =>
        rw [lexLt_cons] at h1 h2 ⊢
        rcases h1 with hab | ⟨rfl, h1⟩
        · rcases h2 with hbc | ⟨rfl, h2⟩
          · exact Or.inl (lt_trans hab hbc)
          · exact Or.inl hab
        · rcases h2 with hbc | ⟨rfl, h2⟩
          · exact Or.inl hbc
          · exact Or.inr ⟨rfl, ih bs cs h1 h2⟩

lemma lexLt_total :
    ∀ as bs : List Char, lexLt as bs = true ∨ lexLt bs as = true ∨ as = bs := by
  intro as
  induction as with
  | nil =>
    intro bs
    cases bs with
    | nil => exact Or.inr (Or.inr rfl)
    | cons b bs => exact Or.inl rfl
  | cons a as ih =>
    intro bs
    cases bs with
    | nil => exact Or.inr (Or.inl rfl)
    | cons b bs =>
      rcases lt_trichotomy a b with h | h | h
      · exact Or.inl ((lexLt_cons a b as bs).mpr (Or.inl h))
      · subst h
        rcases ih bs with h2 | h2 | h2
        · exact Or.inl ((lexLt_cons a a as bs).mpr (Or.inr ⟨rfl, h2⟩))
        · exact Or.inr (Or.inl ((lexLt_cons a a bs as).mpr (Or.inr ⟨rfl, h2⟩)))
        · exact Or.inr (Or.inr (by rw [h2]))
      · exact Or.inr (Or.inl ((lexLt_cons b a bs as).mpr (Or.inl h)))

lemma string_eq_of_data_eq (a b : String) (h : a.data = b.data) : a = b := by
  cases a
  cases b
  exact congrArg String.mk h

lemma pyLe_total (a b : String) : pyLe a b = true ∨ pyLe b a = true := by
  unfold pyLe pyLt
  rcases lexLt_total a.data b.data with h | h | h
  · exact Or.inl (by simp [h])
  · exact Or.inr (by simp [h])
  · have : a = b := string_eq_of_data_eq a b h
    subst this
    exact Or.inl (by simp)

lemma pyLe_trans (a b c : String) (h1 : pyLe a b = true) (h2 : pyLe b c = true) :
    pyLe a c = true := by
  unfold pyLe pyLt at h1 h2 ⊢
  rw [Bool.or_eq_true] at h1 h2 ⊢
  rcases h1 with h1 | h1
  · rcases h2 with h2 | h2
    · exact Or.inl (lexLt_trans _ _ _ h1 h2)
    · rw [beq_iff_eq] at h2
      subst h2
      exact Or.inl h1
  · rw [beq_iff_eq] at h1
    subst h1
    exact h2

lemma sortStr_sorted (l : List String) :
    (sortStr l).Sorted (fun a b => pyLe a b = true) := by
  haveI h1 : IsTotal String (fun a b => pyLe a b = true) := ⟨pyLe_total⟩
  haveI h2 : IsTrans String (fun a b => pyLe a b = true) := ⟨pyLe_trans⟩
  exact List.sorted_insertionSort _ l

lemma sortStr_perm (l : List String) : List.Perm (sortStr l) l :=
  List.perm_insertionSort _ l

lemma sortStr_mem (a : String) (l : List String) : a ∈ sortStr l ↔ a ∈ l :=
  (sortStr_perm l).mem_iff

lemma sortStr_nodup (l : List String) (h : l.Nodup) : (sortStr l).Nodup :=
  (sortStr_perm l).nodup_iff.mpr h

lemma sortData_perm (l : List (String × List (String × Int))) :
    List.Perm (sortData l) l :=
  List.perm_insertionSort _ l

lemma sortData_keys_sorted (l : List (String × List (String × Int))) :
    ((sortData l).map Prod.fst).Sorted (fun a b => pyLe a b = true) := by
  haveI h1 : IsTotal (String × List (String × Int))
      (fun a b => pyLe a.1 b.1 = true) := ⟨fun a b => pyLe_total a.1 b.1⟩
  haveI h2 : IsTrans (String × List (String × Int))
      (fun a b => pyLe a.1 b.1 = true) :=
    ⟨fun a b c hab hbc => pyLe_trans a.1 b.1 c.1 hab hbc⟩
  exact List.pairwise_map.mpr (List.sorted_insertionSort _ l)

lemma assocOf_of_mem :
    ∀ data : List (String × List (String × Int)), (data.map Prod.fst).Nodup →
      ∀ em ∈ data, assocOf data em.1 = em.2 := by
  intro data
  induction data with
  | nil =>
    intro _ em h
    simp at h
  | cons em0 rest ih =>
    intro hnd em hm
    obtain ⟨k0, m0⟩ := em0
    rw [List.map_cons, List.nodup_cons] at hnd
    rcases List.mem_cons.mp hm with rfl | h
    · simp [assocOf_cons]
    · have hne : ¬ k0 = em.1 := fun hh => hnd.1 (by
        rw [hh]
        exact List.mem_map.mpr ⟨em, h, rfl⟩)
      have hb : (k0 == em.1) = false := by simpa using hne
      rw [assocOf_cons]
      simp only [hb, Bool.false_eq_true, if_false]
      exact ih hnd.2 em h

/-- The concrete scenario rows of the claim. -/
def scenarioRecords : List RawRec :=
  [⟨"smile", "2023-01", PyCount.int 10⟩, ⟨"smile", "2023-02", PyCount.int 15⟩,
   ⟨"heart", "2023-01", PyCount.int 5⟩]

/-- Claim-side row total: the sum of a symbol's counts over the rendered
periods (missing entries as 0). -/
def rowTotal (records : List RawRec) (ps : List String) (e : String) : Int :=
  (ps.map (fun p => specCount records e p)).sum

/-- Claim-side per-period column sums over all symbols. -/
def colTotals (records : List RawRec) (ps ss : List String) : List Int :=
  ps.map (fun p => (ss.map (fun e => specCount records e p)).sum)

/-- **C3.** For well-formed records (non-negative integer counts, one
record per (symbol, period) key), the rendered pivot table consists of:
the header `emoji, <periods ascending>, total, average, max_period`; one
data row per distinct symbol, symbols ascending; in each row one count
cell per rendered period with missing entries as 0 (`specCount`), the
row total being their sum, the average `total / #periods` to one decimal
place, and a `max_period` holding a period of that symbol whose count is
maximal; then a blank row and a `TOTAL` row of per-period column sums, a
grand total, its one-decimal average, and a blank `max_period` cell.
The claim's concrete scenario renders to the stated table. -/
theorem pivot_render_spec (records : List RawRec)
    (hwf : ∀ r ∈ records, ∃ n : Int, 0 ≤ n ∧ r.count = PyCount.int n)
    (hnd : (records.map (fun r => (r.emoji, r.period))).Nodup)
    (hne : records ≠ []) :
    write_pivot_rows records =
      (Cell.str "emoji" :: (sortStr (convert_to_pivot records).periods).map Cell.str
        ++ [Cell.str "total", Cell.str "average", Cell.str "max_period"])
      :: (sortData (convert_to_pivot records).data).map
          (fun em => pivotRow (sortStr (convert_to_pivot records).periods) em.1 em.2)
      ++ [[]]
      ++ [totalRow (convert_to_pivot records).data
            (sortStr (convert_to_pivot records).periods)] ∧
    (sortStr (convert_to_pivot records).periods).Sorted
      (fun a b => pyLe a b = true) ∧
    (sortStr (convert_to_pivot records).periods).Nodup ∧
    (∀ p, p ∈ sortStr (convert_to_pivot records).periods ↔
      p ∈ records.map (fun r => r.period)) ∧
    ((sortData (convert_to_pivot records).data).map Prod.fst).Sorted
      (fun a b => pyLe a b = true) ∧
    ((sortData (convert_to_pivot records).data).map Prod.fst).Nodup ∧
    (∀ e, e ∈ (sortData (convert_to_pivot records).data).map Prod.fst ↔
      e ∈ records.map (fun r => r.emoji)) ∧
    (∀ em ∈ sortData (convert_to_pivot records).data,
      em.2 = symData records em.1 ∧
      pivotRow (sortStr (convert_to_pivot records).periods) em.1 em.2 =
        Cell.str em.1 ::
          ((sortStr (convert_to_pivot records).periods).map
            (fun p => specCount records em.1 p)).map Cell.int
          ++ [Cell.int (rowTotal records
                (sortStr (convert_to_pivot records).periods) em.1),
              Cell.str (fmtAvg (rowTotal records
                (sortStr (convert_to_pivot records).periods) em.1)
                (sortStr (convert_to_pivot records).periods).length),
              Cell.str (argmaxAList em.2)] ∧
      (∃ v, (argmaxAList em.2, v) ∈ em.2 ∧ ∀ kv ∈ em.2, kv.2 ≤ v)) ∧
    totalRow (convert_to_pivot records).data
        (sortStr (convert_to_pivot records).periods) =
      Cell.str "TOTAL" ::
        (colTotals records (sortStr (convert_to_pivot records).periods)
          ((sortData (convert_to_pivot records).data).map Prod.fst)).map Cell.int
        ++ [Cell.int (colTotals records (sortStr (convert_to_pivot records).periods)
              ((sortData (convert_to_pivot records).data).map Prod.fst)).sum,
            Cell.str (fmtAvg (colTotals records
                (sortStr (convert_to_pivot records).periods)
                ((sortData (convert_to_pivot records).data).map Prod.fst)).sum
              (sortStr (convert_to_pivot records).periods).length),
            Cell.str ""] ∧
    write_pivot_rows scenarioRecords =
      [[Cell.str "emoji", Cell.str "2023-01", Cell.str "2023-02", Cell.str "total",
        Cell.str "average", Cell.str "max_period"],
       [Cell.str "heart", Cell.int 5, Cell.int 0, Cell.int 5, Cell.str "2.5",
        Cell.str "2023-01"],
       [Cell.str "smile", Cell.int 10, Cell.int 15, Cell.int 25, Cell.str "12.5",
        Cell.str "2023-02"],
       [],
       [Cell.str "TOTAL", Cell.int 15, Cell.int 15, Cell.int 30, Cell.str "15.0",
        Cell.str ""]] := by
  have hsome : ∀ r ∈ records, (pyInt r.count).isSome := by
    intro r hr
    obtain ⟨n, _, hc⟩ := hwf r hr
    rw [hc]
    rfl
  have hpmem : ∀ p, p ∈ (convert_to_pivot records).periods ↔
      p ∈ records.map (fun r => r.period) := by
    intro p
    rw [convert_periods_mem]
    constructor
    · rintro ⟨r, hr, _, hp⟩
      exact List.mem_map.mpr ⟨r, hr, hp⟩
    · intro h
      obtain ⟨r, hr, hp⟩ := List.mem_map.mp h
      exact ⟨r, hr, hsome r hr, hp⟩
  have hkmem : ∀ e, e ∈ (convert_to_pivot records).data.map Prod.fst ↔
      e ∈ records.map (fun r => r.emoji) := by
    intro e
    rw [convert_keys_mem]
    constructor
    · rintro ⟨r, hr, _, hp⟩
      exact List.mem_map.mpr ⟨r, hr, hp⟩
    · intro h
      obtain ⟨r, hr, hp⟩ := List.mem_map.mp h
      exact ⟨r, hr, hsome r hr, hp⟩
  have hpne : (convert_to_pivot records).periods ≠ [] := by
    obtain ⟨r0, hr0⟩ := List.exists_mem_of_ne_nil records hne
    intro hnil
    have hm : r0.period ∈ (convert_to_pivot records).periods :=
      (hpmem r0.period).mpr (List.mem_map.mpr ⟨r0, hr0, rfl⟩)
    rw [hnil] at hm
    simp at hm
  have hpE : (convert_to_pivot records).periods.isEmpty = false := by
    cases hl : (convert_to_pivot records).periods with
    | nil => exact absurd hl hpne
    | cons a l => rfl
  have hentry : ∀ em ∈ sortData (convert_to_pivot records).data,
      em.2 = symData records em.1 := by
    intro em hm
    have hdm : em ∈ (convert_to_pivot records).data := (sortData_perm _).mem_iff.mp hm
    have h1 := assocOf_of_mem _ (convert_keys_nodup records) em hdm
    rw [← h1, convert_assoc em.1 records hnd]
  refine ⟨?_, sortStr_sorted _, sortStr_nodup _ (convert_periods_nodup records),
    ?_, sortData_keys_sorted _, ?_, ?_, ?_, ?_, by decide⟩
  · simp only [write_pivot_rows, hpE, Bool.false_eq_true, if_false]
  · intro p
    rw [sortStr_mem]
    exact hpmem p
  · exact ((sortData_perm _).map Prod.fst).nodup_iff.mpr (convert_keys_nodup records)
  · intro e
    rw [((sortData_perm _).map Prod.fst).mem_iff]
    exact hkmem e
  · intro em hm
    have h2 := hentry em hm
    have hvals : (sortStr (convert_to_pivot records).periods).map (lookupD em.2)
        = (sortStr (convert_to_pivot records).periods).map
            (fun p => specCount records em.1 p) := by
      apply List.map_congr_left
      intro p _
      rw [h2]
      exact lookupD_symData em.1 p records hnd
    refine ⟨h2, ?_, ?_⟩
    · unfold pivotRow rowTotal
      rw [hvals]
    · have hme : em.2 ≠ [] := by
        rw [h2]
        have hdm : em ∈ (convert_to_pivot records).data := (sortData_perm _).mem_iff.mp hm
        have hk : em.1 ∈ (convert_to_pivot records).data.map Prod.fst :=
          List.mem_map.mpr ⟨em, hdm, rfl⟩
        obtain ⟨r1, hr1, hp1⟩ := List.mem_map.mp ((hkmem em.1).mp hk)
        intro hnil
        have hrf : r1 ∈ records.filter
            (fun r2 => (pyInt r2.count).isSome && r2.emoji == em.1) := by
          rw [List.mem_filter]
          exact ⟨hr1, by simp [hsome r1 hr1, hp1]⟩
        unfold symData at hnil
        rw [List.map_eq_nil_iff] at hnil
        rw [hnil] at hrf
        simp at hrf
      exact argmaxAList_spec em.2 hme
  · simp only [totalRow, colTotals]
    have hpts : ∀ p : String,
        ((convert_to_pivot records).data.map (fun em => lookupD em.2 p)).sum
        = (((sortData (convert_to_pivot records).data).map Prod.fst).map
            (fun e => specCount records e p)).sum := by
      intro p
      have h3 := (((sortData_perm (convert_to_pivot records).data).symm).map
        (fun em => lookupD em.2 p)).sum_eq
      rw [h3]
      congr 1
      rw [List.map_map]
      apply List.map_congr_left
      intro em hm
      have h2 := hentry em hm
      show lookupD em.2 p = specCount records em.1 p
      rw [h2]
      exact lookupD_symData em.1 p records hnd
    have hmapeq : (sortStr (convert_to_pivot records).periods).map
        (fun p => ((convert_to_pivot records).data.map (fun em => lookupD em.2 p)).sum)
        = (sortStr (convert_to_pivot records).periods).map
            (fun p => (((sortData (convert_to_pivot records).data).map Prod.fst).map
              (fun e => specCount records e p)).sum) := by
      apply List.map_congr_left
      intro p _
      exact hpts p
    rw [hmapeq]

/-- Witness for C3: the scenario records satisfy the hypotheses. -/
theorem pivot_render_spec_witness :
    write_pivot_rows scenarioRecords =
      (Cell.str "emoji" :: (sortStr (convert_to_pivot scenarioRecords).periods).map Cell.str
        ++ [Cell.str "total", Cell.str "average", Cell.str "max_period"])
      :: (sortData (convert_to_pivot scenarioRecords).data).map
          (fun em => pivotRow (sortStr (convert_to_pivot scenarioRecords).periods) em.1 em.2)
      ++ [[]]
      ++ [totalRow (convert_to_pivot scenarioRecords).data
            (sortStr (convert_to_pivot scenarioRecords).periods)] ∧
    (sortStr (convert_to_pivot scenarioRecords).periods).Sorted
      (fun a b => pyLe a b = true) ∧
    (sortStr (convert_to_pivot scenarioRecords).periods).Nodup ∧
    (∀ p, p ∈ sortStr (convert_to_pivot scenarioRecords).periods ↔
      p ∈ scenarioRecords.map (fun r => r.period)) ∧
    ((sortData (convert_to_pivot scenarioRecords).data).map Prod.fst).Sorted
      (fun a b => pyLe a b = true) ∧
    ((sortData (convert_to_pivot scenarioRecords).data).map Prod.fst).Nodup ∧
    (∀ e, e ∈ (sortData (convert_to_pivot scenarioRecords).data).map Prod.fst ↔
      e ∈ scenarioRecords.map (fun r => r.emoji)) ∧
    (∀ em ∈ sortData (convert_to_pivot scenarioRecords).data,
      em.2 = symData scenarioRecords em.1 ∧
      pivotRow (sortStr (convert_to_pivot scenarioRecords).periods) em.1 em.2 =
        Cell.str em.1 ::
          ((sortStr (convert_to_pivot scenarioRecords).periods).map
            (fun p => specCount scenarioRecords em.1 p)).map Cell.int
          ++ [Cell.int (rowTotal scenarioRecords
                (sortStr (convert_to_pivot scenarioRecords).periods) em.1),
              Cell.str (fmtAvg (rowTotal scenarioRecords
                (sortStr (convert_to_pivot scenarioRecords).periods) em.1)
                (sortStr (convert_to_pivot scenarioRecords).periods).length),
              Cell.str (argmaxAList em.2)] ∧
      (∃ v, (argmaxAList em.2, v) ∈ em.2 ∧ ∀ kv ∈ em.2, kv.2 ≤ v)) ∧
    totalRow (convert_to_pivot scenarioRecords).data
        (sortStr (convert_to_pivot scenarioRecords).periods) =
      Cell.str "TOTAL" ::
        (colTotals scenarioRecords (sortStr (convert_to_pivot scenarioRecords).periods)
          ((sortData (convert_to_pivot scenarioRecords).data).map Prod.fst)).map Cell.int
        ++ [Cell.int (colTotals scenarioRecords (sortStr (convert_to_pivot scenarioRecords).periods)
              ((sortData (convert_to_pivot scenarioRecords).data).map Prod.fst)).sum,
            Cell.str (fmtAvg (colTotals scenarioRecords
                (sortStr (convert_to_pivot scenarioRecords).periods)
                ((sortData (convert_to_pivot scenarioRecords).data).map Prod.fst)).sum
              (sortStr (convert_to_pivot scenarioRecords).periods).length),
            Cell.str ""] ∧
    write_pivot_rows scenarioRecords =
      [[Cell.str "emoji", Cell.str "2023-01", Cell.str "2023-02", Cell.str "total",
        Cell.str "average", Cell.str "max_period"],
       [Cell.str "heart", Cell.int 5, Cell.int 0, Cell.int 5, Cell.str "2.5",
        Cell.str "2023-01"],
       [Cell.str "smile", Cell.int 10, Cell.int 15, Cell.int 25, Cell.str "12.5",
        Cell.str "2023-02"],
       [],
       [Cell.str "TOTAL", Cell.int 15, Cell.int 15, Cell.int 30, Cell.str "15.0",
        Cell.str ""]] :=
  pivot_render_spec scenarioRecords
    (by
      intro r hr
      simp only [scenarioRecords, List.mem_cons, List.not_mem_nil, or_false] at hr
      rcases hr with rfl | rfl | rfl
      · exact ⟨10, by decide, rfl⟩
      · exact ⟨15, by decide, rfl⟩
      · exact ⟨5, by decide, rfl⟩)
    (by decide) (by decide)

end EmojiUsage
